import Mathlib

/-!
Verification of the chat backend's real-time core: a shallow embedding of the
connection registry, the presence broadcast, the reaction toggle, the
seen/seenAt gating, and the message edit/delete lifecycle, each transcribed
from the TypeScript sources (src/src/config/socket.ts and
src/src/controllers/chat.ts), together with theorems settling the frozen
claims about them.

Modelling conventions: machine timestamps are `Nat` milliseconds; a JavaScript
string field that can be `undefined` is modelled as `Option String` (or as
`""` where the source only ever checks truthiness); a Mongo document store is
a `List` of records; `userSocketMap` (a plain JS object) is an
insertion-ordered association list with JS property-assignment semantics.
-/

/-- A reaction entry as stored on a message (src/src/models/Messages.ts:
`reactions: [{ userId: String, emoji: String }]`). -/
structure Reaction where
  userId : String
  emoji : String
deriving DecidableEq

/-- The predicate both reaction handlers use to locate an existing entry:
`r.userId === userId && r.emoji === emoji`. -/
def reactionMatches (userId emoji : String) (r : Reaction) : Bool :=
  r.userId == userId && r.emoji == emoji

/-- Reaction toggle of the HTTP endpoint `addReaction`
(src/src/controllers/chat.ts, lines 276-295): when the exact
(userId, emoji) pair is found, the element at its first index is removed
(`filter((_, index) => index !== existingIndex)`); otherwise every reaction
by this user is filtered out and the new pair is pushed at the end. -/
def addReactionUpdate (existingReactions : List Reaction) (userId emoji : String) :
    List Reaction :=
  match existingReactions.findIdx? (reactionMatches userId emoji) with
  | some existingIndex => existingReactions.eraseIdx existingIndex
  | none =>
      existingReactions.filter (fun r => r.userId != userId) ++
        [{ userId := userId, emoji := emoji }]

/-- Reaction toggle of the real-time handler `socket.on("addReaction")`
(src/src/config/socket.ts, lines 79-95), transcribed separately from its own
site; the source duplicates the endpoint's logic verbatim. -/
def socketReactionUpdate (existingReactions : List Reaction) (userId emoji : String) :
    List Reaction :=
  match existingReactions.findIdx? (reactionMatches userId emoji) with
  | some existingIndex => existingReactions.eraseIdx existingIndex
  | none =>
      existingReactions.filter (fun r => r.userId != userId) ++
        [{ userId := userId, emoji := emoji }]

/-- The reactions one user currently has on a message state. -/
def userReactions (reactions : List Reaction) (userId : String) : List Reaction :=
  reactions.filter (fun r => r.userId == userId)

/-- Invariant: at most one reaction per user (distinct `userId` fields). -/
def atMostOnePerUser (reactions : List Reaction) : Prop :=
  reactions.Pairwise (fun a b => a.userId ≠ b.userId)

instance (reactions : List Reaction) : Decidable (atMostOnePerUser reactions) :=
  List.instDecidablePairwise reactions

/-- The message state a reaction handler reads: the stored `reactions` field
may be absent (`message.reactions || []`). -/
structure StoredReactions where
  reactions : Option (List Reaction)
deriving DecidableEq

/-- Outcome of the socket `addReaction` handler (src/src/config/socket.ts,
lines 54-98): `none` when the guard rejects the input (an empty string models
a missing `userId`/`messageId`/`emoji`) or the message lookup fails, else the
persisted reaction list. -/
def socketAddReactionHandler (userId messageId emoji : String)
    (found : Option StoredReactions) : Option (List Reaction) :=
  if userId == "" || messageId == "" || emoji == "" then none
  else
    match found with
    | none => none
    | some message =>
        some (socketReactionUpdate (message.reactions.getD []) userId emoji)

/-- Outcome of the HTTP `addReaction` endpoint (src/src/controllers/chat.ts,
lines 259-308): a 400 on missing input and a 404 on a failed lookup both
persist nothing (`none`), else the persisted reaction list. -/
def httpAddReactionHandler (userId messageId emoji : String)
    (found : Option StoredReactions) : Option (List Reaction) :=
  if userId == "" || messageId == "" || emoji == "" then none
  else
    match found with
    | none => none
    | some message =>
        some (addReactionUpdate (message.reactions.getD []) userId emoji)

/-- JS property assignment `userSocketMap[userId] = socket.id`: replace the
value in place when the key exists, append otherwise. -/
def setKey : List (String × String) → String → String → List (String × String)
  | [], k, v => [(k, v)]
  | (k', v') :: rest, k, v =>
      if k' == k then (k, v) :: rest else (k', v') :: setKey rest k v

/-- JS property deletion `delete userSocketMap[userId]`. -/
def delKey : List (String × String) → String → List (String × String)
  | [], _ => []
  | (k', v') :: rest, k => if k' == k then rest else (k', v') :: delKey rest k

/-- JS property read `userSocketMap[recieverId]` (`getRecieverSocketId`,
src/src/config/socket.ts, lines 20-22). -/
def lookupKey : List (String × String) → String → Option String
  | [], _ => none
  | (k', v') :: rest, k => if k' == k then some v' else lookupKey rest k

/-- `Object.keys(userSocketMap)`. -/
def regKeys (registry : List (String × String)) : List String :=
  registry.map Prod.fst

/-- The keys of the registry are pairwise distinct (true of every JS object;
preserved by the operations below). -/
def KeysNodup (registry : List (String × String)) : Prop :=
  (regKeys registry).Nodup

instance (registry : List (String × String)) : Decidable (KeysNodup registry) :=
  inferInstanceAs (Decidable (regKeys registry).Nodup)

/-- A live connection: the handshake-query user id (`undefined` is `none`)
and the socket id. -/
structure Conn where
  userId : Option String
  socketId : String
deriving DecidableEq

/-- Registry effect and `getOnlineUser` broadcast of the connection handler
(src/src/config/socket.ts, lines 24-43): register when the handshake userId
is truthy and not the literal string "undefined", then emit
`Object.keys(userSocketMap)` to all connections. -/
def handleConnect (registry : List (String × String)) (c : Conn) :
    List (String × String) × List String :=
  let registry2 :=
    match c.userId with
    | some uid =>
        if uid != "" && uid != "undefined" then setKey registry uid c.socketId
        else registry
    | none => registry
  (registry2, regKeys registry2)

/-- Registry effect and broadcast of the disconnect handler
(src/src/config/socket.ts, lines 156-162): when the closure's userId is
truthy, delete the mapping keyed by that user id — the handler never compares
the stored socket id with the disconnecting socket's id — and emit the new
key set; `none` broadcast when nothing is emitted. -/
def handleDisconnect (registry : List (String × String)) (c : Conn) :
    List (String × String) × Option (List String) :=
  match c.userId with
  | some uid =>
      if uid != "" then
        let registry2 := delKey registry uid
        (registry2, some (regKeys registry2))
      else (registry, none)
  | none => (registry, none)

/-- Connection-lifecycle events the registry reacts to. -/
inductive RegEvent where
  | connect (c : Conn)
  | disconnect (c : Conn)
deriving DecidableEq

/-- Registry state transition for one event. -/
def stepRegistry (registry : List (String × String)) : RegEvent → List (String × String)
  | RegEvent.connect c => (handleConnect registry c).1
  | RegEvent.disconnect c => (handleDisconnect registry c).1

/-- Registry state after a sequence of events, starting from the empty map. -/
def runRegistry (events : List RegEvent) : List (String × String) :=
  events.foldl stepRegistry []

/-- Modelled from the spec: the presence set the claim asserts is broadcast —
the registered user ids whose `showOnlineStatus` flag is not explicitly
`false`. No such filter (and no privacy state at all) exists in
src/src/config/socket.ts; this definition only follows the claim's words so
the broadcast the code computes can be compared against it. -/
def claimedPresenceSet (registry : List (String × String))
    (showOnlineStatus : String → Option Bool) : List String :=
  (regKeys registry).filter (fun u => showOnlineStatus u != some false)

/-- Message types of the schema enum (src/src/models/Messages.ts). -/
inductive MessageType where
  | text
  | image
  | deleted
  | reply
  | forward
deriving DecidableEq

/-- An uploaded image reference. -/
structure ImageRef where
  url : String
  publicId : String
deriving DecidableEq

/-- A persisted message record (src/src/models/Messages.ts); an absent
optional `text` is modelled as `""`, matching the source's truthiness checks. -/
structure Message where
  id : Nat
  chatId : String
  sender : String
  text : String
  image : Option ImageRef
  messageType : MessageType
  seen : Bool
  seenAt : Option Nat
  reactions : List Reaction
  isEdited : Bool
  editedAt : Option Nat
  createdAt : Nat
deriving DecidableEq

/-- Per-user privacy flags consulted by the chat controller. -/
structure PrivacySettings where
  showReadReceipts : Bool
deriving DecidableEq

/-- Result of one profile-service fetch: `none` is a failed call, and
`some none` a fulfilled call whose payload has no `privacySettings`; both
default to receipts-on (`privacySettings || { showReadReceipts: true }`,
src/src/controllers/chat.ts, lines 389-402 and 621-646). -/
def privacyOrDefault (result : Option (Option PrivacySettings)) : PrivacySettings :=
  match result with
  | none => { showReadReceipts := true }
  | some settings => settings.getD { showReadReceipts := true }

/-- `bothAllowReadReceipts` (src/src/controllers/chat.ts, lines 404-406 and
648-650). -/
def bothAllowReadReceipts
    (senderResult receiverResult : Option (Option PrivacySettings)) : Bool :=
  (privacyOrDefault senderResult).showReadReceipts &&
    (privacyOrDefault receiverResult).showReadReceipts

/-- `isReceiverInChatRoom` (src/src/controllers/chat.ts, lines 408-417):
resolve the receiver's socket through the registry, then ask whether that
socket has joined the chat's room; `rooms` maps a socket id to its joined
room ids. -/
def receiverInChatRoom (registry : List (String × String))
    (rooms : String → List String) (otherUserId chatId : String) : Bool :=
  match lookupKey registry otherUserId with
  | some sid => (rooms sid).contains chatId
  | none => false

/-- The `seen`/`seenAt` pair `sendMessage` persists on a new message
(src/src/controllers/chat.ts, lines 419-426): `seen` is exactly the room
presence of the receiver, while `seenAt` additionally requires both
read-receipt flags. -/
def sendMessageSeenFields (registry : List (String × String))
    (rooms : String → List String) (otherUserId chatId : String)
    (senderResult receiverResult : Option (Option PrivacySettings))
    (now : Nat) : Bool × Option Nat :=
  let isRoom := receiverInChatRoom registry rooms otherUserId chatId
  (isRoom,
    if isRoom && bothAllowReadReceipts senderResult receiverResult then some now
    else none)

/-- The `messagesSeen` notification payload. -/
structure SeenEvent where
  chatId : String
  seenBy : String
  messageIds : List Nat
  seenAt : Nat
deriving DecidableEq

/-- The mark-seen filter of `getMessagesByChat`
(src/src/controllers/chat.ts, lines 653-657): same chat, not authored by the
requester, not yet seen. -/
def markSeenFilter (chatId userId : String) (m : Message) : Bool :=
  m.chatId == chatId && m.sender != userId && m.seen == false

/-- The `updateMany` patch of the mark-seen batch
(src/src/controllers/chat.ts, lines 661-671): `seen` becomes true
unconditionally; `seenAt` is included in the patch only when both
read-receipt flags allow it, and is left untouched otherwise. -/
def applyMarkSeen (bothAllow : Bool) (now : Nat) (m : Message) : Message :=
  { m with seen := true, seenAt := if bothAllow then some now else m.seenAt }

/-- The mark-seen batch of `getMessagesByChat`
(src/src/controllers/chat.ts, lines 652-686): runs only on page 1; patches
every message matching the filter; emits at most one `messagesSeen` event,
carrying the ids of the whole batch, and only when both read-receipt flags
are true and the other participant's socket resolves
(`otherUserSocket = none` models a missing other user or an offline one). -/
def getMessagesMarkSeen (allMessages : List Message) (chatId userId : String)
    (bothAllow : Bool) (now : Nat) (page : Nat) (otherUserSocket : Option String) :
    List Message × Option SeenEvent :=
  if page = 1 then
    let messagesToMarkSeen := allMessages.filter (markSeenFilter chatId userId)
    if messagesToMarkSeen.length > 0 then
      let updated := allMessages.map (fun m =>
        if markSeenFilter chatId userId m then applyMarkSeen bothAllow now m else m)
      let ev :=
        if bothAllow then
          match otherUserSocket with
          | some _ =>
              some { chatId := chatId, seenBy := userId,
                     messageIds := messagesToMarkSeen.map Message.id, seenAt := now }
          | none => none
        else none
      (updated, ev)
    else (allMessages, none)
  else (allMessages, none)

/-- JavaScript `String.prototype.trim()`, written over the character list so
that it evaluates by kernel reduction: strip leading and trailing
whitespace. -/
def strTrim (s : String) : String :=
  String.mk
    (((s.data.dropWhile Char.isWhitespace).reverse.dropWhile
        Char.isWhitespace).reverse)

/-- Outcome of the edit endpoint: an HTTP error status with its message, or
the updated record. -/
inductive EditOutcome where
  | rejected (status : Nat) (reason : String)
  | edited (m : Message)
deriving DecidableEq

/-- `editMessage` (src/src/controllers/chat.ts, lines 856-922), given the
located message: rejects empty replacement text, a non-sender requester, a
deleted message, an image message without text, and an elapsed time beyond
15 minutes; otherwise trims the text, sets `isEdited` and records
`editedAt`. Times are epoch milliseconds; `now - createdAt` on `Nat`
truncates at zero exactly where the source's negative difference also fails
the strict comparison. -/
def editMessage (userId text : String) (message : Message) (now : Nat) :
    EditOutcome :=
  if strTrim text = "" then EditOutcome.rejected 400 "Message text is required"
  else if message.sender ≠ userId then
    EditOutcome.rejected 403 "You can only edit your own messages"
  else if message.messageType = MessageType.deleted then
    EditOutcome.rejected 400 "Cannot edit a deleted message"
  else if message.messageType = MessageType.image ∧ message.text = "" then
    EditOutcome.rejected 400 "Cannot edit image-only messages"
  else if now - message.createdAt > 15 * 60 * 1000 then
    EditOutcome.rejected 400 "Messages can only be edited within 15 minutes of sending"
  else
    EditOutcome.edited
      { message with text := strTrim text, isEdited := true, editedAt := some now }

/-- Whether an edit outcome is an error response. -/
def isRejected : EditOutcome → Bool
  | EditOutcome.rejected _ _ => true
  | EditOutcome.edited _ => false

/-- The soft-delete transition applied to the located message
(src/src/controllers/chat.ts, lines 805-810): the record keeps its identity
and position but its type becomes `deleted` and its content and reactions
are cleared. -/
def deleteMessageRecord (message : Message) : Message :=
  { message with
      messageType := MessageType.deleted, text := "", image := none,
      reactions := [] }

/-- Outcome of the delete endpoint. -/
inductive DeleteOutcome where
  | rejected (status : Nat) (reason : String)
  | deleted (m : Message)
deriving DecidableEq

/-- `deleteMessage` (src/src/controllers/chat.ts, lines 774-810), given the
located message: only the sender may delete; the record is tombstoned, never
removed. -/
def deleteMessage (userId : String) (message : Message) : DeleteOutcome :=
  if message.sender ≠ userId then
    DeleteOutcome.rejected 403 "You can only delete your own messages"
  else DeleteOutcome.deleted (deleteMessageRecord message)

/-- The denormalized latest-message summary on a chat. -/
structure LatestMessage where
  text : String
  sender : String
deriving DecidableEq

/-- A persisted chat record (src/src/models/Chat.ts as used by the
controller). -/
structure ChatRec where
  id : String
  users : List String
  latestMessage : LatestMessage
deriving DecidableEq

/-- The latest-message refresh the delete endpoint performs
(src/src/controllers/chat.ts, lines 832-848): it overwrites
`Chat.latestMessage` with the sentinel whenever the current text is not
already the sentinel — it never consults which message was deleted. -/
def deleteUpdateLatest (chat : ChatRec) (userId : String) : ChatRec :=
  if chat.latestMessage.text ≠ "Message deleted" then
    { chat with latestMessage := { text := "Message deleted", sender := userId } }
  else chat

/-- A message is the chronologically-latest of a store (the notion the edit
endpoint's refresh uses: `findOne sort createdAt descending`). -/
def isChatLatest (allMessages : List Message) (m : Message) : Prop :=
  m ∈ allMessages ∧ ∀ m' ∈ allMessages, m'.createdAt ≤ m.createdAt

instance (allMessages : List Message) (m : Message) :
    Decidable (isChatLatest allMessages m) := by
  unfold isChatLatest
  exact inferInstance

/-! ## Helper lemmas: the reaction toggle -/

theorem findIdx?_shift {α : Type} (p : α → Bool) :
    ∀ (l : List α) (n : Nat),
      List.findIdx? p l (n + 1) = (List.findIdx? p l n).map (fun j => j + 1) := by
  intro l
  induction l with
  | nil => intro n; simp [List.findIdx?]
  | cons a t ih =>
      intro n
      rw [List.findIdx?_cons, List.findIdx?_cons]
      by_cases h : p a = true
      · simp [h]
      · rw [Bool.not_eq_true] at h
        simp [h, ih]

theorem eraseIdx_of_findIdx? {α : Type} (p : α → Bool) :
    ∀ (l : List α) (i : Nat),
      List.findIdx? p l = some i → l.eraseIdx i = l.eraseP p := by
  intro l
  induction l with
  | nil => intro i h; simp at h
  | cons a t ih =>
      intro i h
      rw [List.findIdx?_cons] at h
      by_cases ha : p a = true
      · rw [if_pos ha] at h
        cases h
        simp [List.eraseP_cons, ha]
      · rw [if_neg ha] at h
        rw [findIdx?_shift] at h
        cases hfind : List.findIdx? p t with
        | none => rw [hfind] at h; simp at h
        | some j =>
            rw [hfind] at h
            cases h
            rw [Bool.not_eq_true] at ha
            simp [List.eraseP_cons, ha, ih j hfind]

theorem reactionMatches_iff (u e : String) (r : Reaction) :
    reactionMatches u e r = true ↔ r = Reaction.mk u e := by
  cases r with
  | mk ru re => simp [reactionMatches, Reaction.mk.injEq]

theorem reactionMatches_eq_beq (u e : String) :
    reactionMatches u e = (fun r => Reaction.mk u e == r) := by
  funext r
  by_cases h : r = Reaction.mk u e
  · subst h; simp [reactionMatches]
  · have h1 : ¬ reactionMatches u e r = true := by
      rw [reactionMatches_iff]; exact h
    have h2 : ¬ (Reaction.mk u e == r) = true := by
      simp only [beq_iff_eq]
      exact fun hh => h hh.symm
    rw [Bool.not_eq_true] at h1 h2
    rw [h1, h2]

theorem addReactionUpdate_of_mem {S : List Reaction} {u e : String}
    (h : Reaction.mk u e ∈ S) :
    addReactionUpdate S u e = S.erase (Reaction.mk u e) := by
  unfold addReactionUpdate
  cases hfind : S.findIdx? (reactionMatches u e) with
  | none =>
      exfalso
      rw [List.findIdx?_eq_none_iff] at hfind
      have hh := hfind _ h
      simp [reactionMatches] at hh
  | some i =>
      show S.eraseIdx i = S.erase (Reaction.mk u e)
      rw [eraseIdx_of_findIdx? _ _ _ hfind, reactionMatches_eq_beq,
        List.erase_eq_eraseP]

theorem addReactionUpdate_of_not_mem {S : List Reaction} {u e : String}
    (h : Reaction.mk u e ∉ S) :
    addReactionUpdate S u e =
      S.filter (fun r => r.userId != u) ++ [Reaction.mk u e] := by
  unfold addReactionUpdate
  cases hfind : S.findIdx? (reactionMatches u e) with
  | none => rfl
  | some i =>
      exfalso
      have hnone : S.findIdx? (reactionMatches u e) = none := by
        rw [List.findIdx?_eq_none_iff]
        intro x hx
        by_contra hc
        rw [Bool.not_eq_false, reactionMatches_iff] at hc
        exact h (hc ▸ hx)
      rw [hnone] at hfind
      cases hfind

theorem userReactions_erase_of_inv {u e : String} :
    ∀ {S : List Reaction}, atMostOnePerUser S → Reaction.mk u e ∈ S →
      userReactions (S.erase (Reaction.mk u e)) u = [] := by
  intro S
  induction S with
  | nil => intro _ hmem; cases hmem
  | cons a t ih =>
      intro hinv hmem
      rcases List.pairwise_cons.mp hinv with ⟨ha, ht⟩
      rw [List.erase_cons]
      by_cases hae : a = Reaction.mk u e
      · rw [if_pos (by simp [hae])]
        unfold userReactions
        rw [List.filter_eq_nil_iff]
        intro b hb
        have hne := ha b hb
        rw [hae] at hne
        simp only [beq_iff_eq]
        exact fun hc => hne hc.symm
      · rw [if_neg (by simp [hae])]
        have hmt : Reaction.mk u e ∈ t := by
          rcases List.mem_cons.mp hmem with h1 | h1
          · exact absurd h1.symm hae
          · exact h1
        have hau : (a.userId == u) = false := by
          have hne := ha _ hmt
          simp only [beq_eq_false_iff_ne, ne_eq]
          exact hne
        unfold userReactions
        rw [List.filter_cons, hau]
        exact ih ht hmt

theorem atMostOnePerUser_update (S : List Reaction) (u e : String)
    (hinv : atMostOnePerUser S) : atMostOnePerUser (addReactionUpdate S u e) := by
  by_cases hmem : Reaction.mk u e ∈ S
  · rw [addReactionUpdate_of_mem hmem]
    exact List.Pairwise.sublist (List.erase_sublist _ _) hinv
  · rw [addReactionUpdate_of_not_mem hmem]
    unfold atMostOnePerUser
    rw [List.pairwise_append]
    refine ⟨List.Pairwise.sublist (List.filter_sublist S) hinv, by simp, ?_⟩
    intro a hain b hbin
    rcases List.mem_filter.mp hain with ⟨-, hpa⟩
    have hb : b = Reaction.mk u e := by
      simpa using hbin
    subst hb
    simpa using hpa

/-! ## Claim C3 and C10 theorems -/

/-- Claim C3 counterexample: with the (user, emoji) pair already present,
one application of the toggle leaves zero reactions for that user (not
exactly one), and two applications restore the pair (the user's reaction set
is not empty). -/
theorem addReaction_toggle_counterexample :
    (userReactions (addReactionUpdate [Reaction.mk "u" "a"] "u" "a") "u").length ≠ 1
    ∧ userReactions
        (addReactionUpdate (addReactionUpdate [Reaction.mk "u" "a"] "u" "a") "u" "a")
        "u" ≠ [] := by
  decide

/-- Claim C3 (amended): on any state with at most one reaction per user, the
toggle preserves that invariant (so every state reachable from the empty set
keeps it); when the pair is absent, one application leaves exactly the new
reaction for that user — replacing any prior one — and a second application
removes it, leaving the user with none; when the pair is present, one
application leaves the user with no reaction and a second restores the
original set (as a set). -/
theorem addReaction_toggle_semantics (S : List Reaction) (u e : String)
    (hinv : atMostOnePerUser S) :
    atMostOnePerUser (addReactionUpdate S u e)
    ∧ (Reaction.mk u e ∉ S →
        userReactions (addReactionUpdate S u e) u = [Reaction.mk u e]
        ∧ userReactions (addReactionUpdate (addReactionUpdate S u e) u e) u = [])
    ∧ (Reaction.mk u e ∈ S →
        userReactions (addReactionUpdate S u e) u = []
        ∧ ∀ r, (r ∈ addReactionUpdate (addReactionUpdate S u e) u e ↔ r ∈ S))
    ∧ ∀ ops : List (String × String),
        atMostOnePerUser
          (ops.foldl (fun acc p => addReactionUpdate acc p.1 p.2) []) := by
  refine ⟨atMostOnePerUser_update S u e hinv, ?_, ?_, ?_⟩
  · intro hnot
    have hupd := addReactionUpdate_of_not_mem hnot
    constructor
    · rw [hupd]
      unfold userReactions
      rw [List.filter_append]
      have h1 : (S.filter (fun r => r.userId != u)).filter
          (fun r => r.userId == u) = [] := by
        rw [List.filter_eq_nil_iff]
        intro b hb
        rcases List.mem_filter.mp hb with ⟨-, hp⟩
        simp only [bne_iff_ne, ne_eq] at hp
        simp only [beq_iff_eq]
        exact hp
      rw [h1]
      simp
    · have hinv2 := atMostOnePerUser_update S u e hinv
      have hmem2 : Reaction.mk u e ∈ addReactionUpdate S u e := by
        rw [hupd]; exact List.mem_append_right _ (by simp)
      rw [addReactionUpdate_of_mem hmem2]
      exact userReactions_erase_of_inv hinv2 hmem2
  · intro hmem
    have hupd := addReactionUpdate_of_mem hmem
    have hempty : userReactions (addReactionUpdate S u e) u = [] := by
      rw [hupd]; exact userReactions_erase_of_inv hinv hmem
    refine ⟨hempty, ?_⟩
    have hnot2 : Reaction.mk u e ∉ addReactionUpdate S u e := by
      intro hc
      have hin : Reaction.mk u e ∈ userReactions (addReactionUpdate S u e) u := by
        unfold userReactions
        rw [List.mem_filter]
        exact ⟨hc, by simp⟩
      rw [hempty] at hin
      cases hin
    have hupd2 := addReactionUpdate_of_not_mem hnot2
    have hfull : (addReactionUpdate S u e).filter (fun r => r.userId != u) =
        addReactionUpdate S u e := by
      rw [List.filter_eq_self]
      intro a ha
      simp only [bne_iff_ne, ne_eq]
      intro hc
      have hin : a ∈ userReactions (addReactionUpdate S u e) u := by
        unfold userReactions
        rw [List.mem_filter]
        exact ⟨ha, by simp [hc]⟩
      rw [hempty] at hin
      cases hin
    intro r
    rw [hupd2, hfull, List.mem_append]
    constructor
    · rintro (hr | hr)
      · rw [hupd] at hr
        exact List.Sublist.subset (List.erase_sublist _ _) hr
      · have hre : r = Reaction.mk u e := by simpa using hr
        rw [hre]; exact hmem
    · intro hr
      by_cases hre : r = Reaction.mk u e
      · right; simp [hre]
      · left
        rw [hupd]
        exact (List.mem_erase_of_ne hre).mpr hr
  · intro ops
    have hgen : ∀ (l : List (String × String)) (acc : List Reaction),
        atMostOnePerUser acc →
        atMostOnePerUser (l.foldl (fun acc p => addReactionUpdate acc p.1 p.2) acc) := by
      intro l
      induction l with
      | nil => intro acc h; exact h
      | cons p t ih => intro acc h; exact ih _ (atMostOnePerUser_update _ _ _ h)
    exact hgen ops [] (by decide)

/-- Witness for the amended claim C3 at a concrete state: the invariant holds
for a one-element state of another user, and one toggle by user "u" with a
fresh pair leaves exactly the new reaction for "u". -/
theorem addReaction_toggle_semantics_witness :
    atMostOnePerUser [Reaction.mk "v" "b"]
    ∧ userReactions (addReactionUpdate [Reaction.mk "v" "b"] "u" "a") "u" =
        [Reaction.mk "u" "a"] :=
  ⟨by decide,
    ((addReaction_toggle_semantics [Reaction.mk "v" "b"] "u" "a" (by decide)).2.1
      (by decide)).1⟩

/-- Claim C10: the real-time `addReaction` handler and the HTTP `addReaction`
endpoint compute the same persisted reaction set — both the bare
toggle-or-replace update and the full guarded handlers agree on every
input. -/
theorem socket_http_reaction_agree :
    (∀ (S : List Reaction) (u e : String),
        socketReactionUpdate S u e = addReactionUpdate S u e)
    ∧ ∀ (userId messageId emoji : String) (found : Option StoredReactions),
        socketAddReactionHandler userId messageId emoji found =
          httpAddReactionHandler userId messageId emoji found :=
  ⟨fun _ _ _ => rfl, fun _ _ _ _ => rfl⟩

/-! ## Helper lemmas: the connection registry -/

theorem lookupKey_setKey_self : ∀ (r : List (String × String)) (k v : String),
    lookupKey (setKey r k v) k = some v := by
  intro r k v
  induction r with
  | nil => simp [setKey, lookupKey]
  | cons a t ih =>
      obtain ⟨k', v'⟩ := a
      by_cases h : k' = k
      · simp [setKey, h, lookupKey]
      · have hb : (k' == k) = false := by simp [h]
        simp [setKey, hb, lookupKey, ih]

theorem regKeys_cons (a : String × String) (t : List (String × String)) :
    regKeys (a :: t) = a.1 :: regKeys t := rfl

theorem regKeys_setKey : ∀ (r : List (String × String)) (k v : String),
    regKeys (setKey r k v) =
      if k ∈ regKeys r then regKeys r else regKeys r ++ [k] := by
  intro r k v
  induction r with
  | nil => simp [setKey, regKeys]
  | cons a t ih =>
      obtain ⟨k', v'⟩ := a
      by_cases h : k' = k
      · subst h
        have hset : setKey ((k', v') :: t) k' v = (k', v) :: t := by
          simp [setKey]
        rw [hset, regKeys_cons, regKeys_cons,
          if_pos (List.mem_cons_self _ _)]
      · have hb : (k' == k) = false := by simp [h]
        have hset : setKey ((k', v') :: t) k v = (k', v') :: setKey t k v := by
          simp [setKey, hb]
        have hmem : k ∈ k' :: regKeys t ↔ k ∈ regKeys t := by
          rw [List.mem_cons]
          constructor
          · rintro (h1 | h1)
            · exact absurd h1.symm h
            · exact h1
          · exact Or.inr
        rw [hset, regKeys_cons, regKeys_cons, ih]
        by_cases hk : k ∈ regKeys t
        · rw [if_pos hk, if_pos (hmem.mpr hk)]
        · rw [if_neg hk, if_neg (fun hc => hk (hmem.mp hc))]
          rfl

theorem keysNodup_setKey (r : List (String × String)) (k v : String)
    (h : KeysNodup r) : KeysNodup (setKey r k v) := by
  unfold KeysNodup
  rw [regKeys_setKey]
  by_cases hk : k ∈ regKeys r
  · rw [if_pos hk]; exact h
  · rw [if_neg hk]
    rw [List.nodup_append]
    refine ⟨h, List.nodup_singleton _, ?_⟩
    intro a ha hb
    rw [List.mem_singleton] at hb
    subst hb
    exact hk ha

theorem delKey_sublist : ∀ (r : List (String × String)) (k : String),
    (delKey r k).Sublist r := by
  intro r k
  induction r with
  | nil => simp [delKey]
  | cons a t ih =>
      obtain ⟨k', v'⟩ := a
      by_cases h : k' = k
      · simp only [delKey, h, beq_self_eq_true, if_true]
        exact List.sublist_cons_self _ _
      · have hb : (k' == k) = false := by simp [h]
        simp only [delKey, hb, Bool.false_eq_true, if_false]
        exact List.Sublist.cons₂ _ ih

theorem keysNodup_delKey (r : List (String × String)) (k : String)
    (h : KeysNodup r) : KeysNodup (delKey r k) :=
  List.Nodup.sublist (List.Sublist.map Prod.fst (delKey_sublist r k)) h

theorem not_mem_regKeys_delKey :
    ∀ (r : List (String × String)) (k : String), KeysNodup r →
      k ∉ regKeys (delKey r k) := by
  intro r k
  induction r with
  | nil => intro _; simp [delKey, regKeys]
  | cons a t ih =>
      intro hn
      obtain ⟨k', v'⟩ := a
      have hn' : KeysNodup t := by
        unfold KeysNodup at hn ⊢
        simp only [regKeys, List.map_cons] at hn
        exact (List.nodup_cons.mp hn).2
      by_cases h : k' = k
      · subst h
        simp only [delKey, beq_self_eq_true, if_true]
        unfold KeysNodup at hn
        simp only [regKeys, List.map_cons] at hn
        exact (List.nodup_cons.mp hn).1
      · have hb : (k' == k) = false := by simp [h]
        simp only [delKey, hb, Bool.false_eq_true, if_false, regKeys,
          List.map_cons, List.mem_cons]
        rintro (hc | hc)
        · exact h hc.symm
        · exact ih hn' hc

theorem lookupKey_eq_none_iff : ∀ (r : List (String × String)) (k : String),
    lookupKey r k = none ↔ k ∉ regKeys r := by
  intro r k
  induction r with
  | nil => simp [lookupKey, regKeys]
  | cons a t ih =>
      obtain ⟨k', v'⟩ := a
      by_cases h : k' = k
      · subst h
        simp [lookupKey, regKeys]
      · have hb : (k' == k) = false := by simp [h]
        simp only [lookupKey, hb, Bool.false_eq_true, if_false, regKeys,
          List.map_cons, List.mem_cons]
        rw [ih]
        constructor
        · intro hc
          rintro (h1 | h1)
          · exact h h1.symm
          · exact hc h1
        · intro hc h1
          exact hc (Or.inr h1)

theorem keysNodup_step (r : List (String × String)) (ev : RegEvent)
    (h : KeysNodup r) : KeysNodup (stepRegistry r ev) := by
  cases ev with
  | connect c =>
      simp only [stepRegistry, handleConnect]
      cases c.userId with
      | none => exact h
      | some uid =>
          by_cases hg : (uid != "" && uid != "undefined") = true
          · simp only [hg, if_true]
            exact keysNodup_setKey r uid c.socketId h
          · rw [Bool.not_eq_true] at hg
            simp only [hg, Bool.false_eq_true, if_false]
            exact h
  | disconnect c =>
      simp only [stepRegistry, handleDisconnect]
      cases c.userId with
      | none => exact h
      | some uid =>
          by_cases hg : (uid != "") = true
          · simp only [hg, if_true]
            exact keysNodup_delKey r uid h
          · rw [Bool.not_eq_true] at hg
            simp only [hg, Bool.false_eq_true, if_false]
            exact h

theorem keysNodup_run (events : List RegEvent) : KeysNodup (runRegistry events) := by
  have hgen : ∀ (l : List RegEvent) (acc : List (String × String)),
      KeysNodup acc → KeysNodup (l.foldl stepRegistry acc) := by
    intro l
    induction l with
    | nil => intro acc h; exact h
    | cons ev t ih => intro acc h; exact ih _ (keysNodup_step acc ev h)
  exact hgen events [] (by simp [KeysNodup, regKeys])

/-! ## Claim C1, C8 and C9 theorems -/

/-- Claim C1 counterexample: after user "u" connects with
`showOnlineStatus` explicitly false, the broadcast the handler emits is
`["u"]`, while the set the claim asserts (registered users whose flag is not
explicitly false) is empty — the source broadcasts all registered users and
consults no privacy flag. -/
theorem presence_broadcast_counterexample :
    (handleConnect [] (Conn.mk (some "u") "s1")).2 = ["u"]
    ∧ claimedPresenceSet (handleConnect [] (Conn.mk (some "u") "s1")).1
        (fun _ => some false) = []
    ∧ (handleConnect [] (Conn.mk (some "u") "s1")).2 ≠
        claimedPresenceSet (handleConnect [] (Conn.mk (some "u") "s1")).1
          (fun _ => some false) := by
  decide

/-- Claim C1 (amended): the presence broadcast performed after every connect
and disconnect sends, to all connections, the set of all registered user ids
— no privacy filtering is applied — and a disconnected (unregistered) user
is never in the broadcast set. -/
theorem presence_broadcast_all_registered (r : List (String × String)) (c : Conn)
    (hn : KeysNodup r) :
    (handleConnect r c).2 = regKeys (handleConnect r c).1
    ∧ (∀ u, u ∈ (handleConnect r c).2 ↔ lookupKey (handleConnect r c).1 u ≠ none)
    ∧ ∀ uid, c.userId = some uid → uid ≠ "" →
        (handleDisconnect r c).2 = some (regKeys (delKey r uid))
        ∧ uid ∉ regKeys (delKey r uid) := by
  refine ⟨rfl, ?_, ?_⟩
  · intro u
    rw [ne_eq, lookupKey_eq_none_iff, not_not]
    exact Iff.rfl
  · intro uid hcu hne
    have hb : (uid != "") = true := by simp [hne]
    constructor
    · simp [handleDisconnect, hcu, hb]
    · exact not_mem_regKeys_delKey r uid hn

/-- Witness for the amended claim C1: on a concrete two-user registry, the
connect broadcast equals the full key set and contains exactly the
registered users; the disconnect broadcast omits the departed user. -/
theorem presence_broadcast_all_registered_witness :
    KeysNodup [("a", "s1")]
    ∧ (handleConnect [("a", "s1")] (Conn.mk (some "b") "s2")).2 =
        regKeys (handleConnect [("a", "s1")] (Conn.mk (some "b") "s2")).1
    ∧ ((handleDisconnect [("a", "s1")] (Conn.mk (some "a") "s1")).2 =
          some (regKeys (delKey [("a", "s1")] "a"))
        ∧ "a" ∉ regKeys (delKey [("a", "s1")] "a")) :=
  ⟨by decide,
    (presence_broadcast_all_registered [("a", "s1")] (Conn.mk (some "b") "s2")
      (by decide)).1,
    (presence_broadcast_all_registered [("a", "s1")] (Conn.mk (some "a") "s1")
      (by decide)).2.2 "a" rfl (by decide)⟩

/-- Claim C8: in every reachable registry state each user id has at most one
entry, and a second connect with the same user id overwrites the first, so a
lookup afterwards returns the newer connection id. -/
theorem registry_at_most_one_connection :
    (∀ (events : List RegEvent) (u : String),
        (regKeys (runRegistry events)).count u ≤ 1)
    ∧ ∀ (r : List (String × String)) (u s1 s2 : String),
        u ≠ "" → u ≠ "undefined" →
        lookupKey
          (stepRegistry (stepRegistry r (RegEvent.connect (Conn.mk (some u) s1)))
            (RegEvent.connect (Conn.mk (some u) s2))) u = some s2 := by
  constructor
  · intro es u
    exact List.nodup_iff_count_le_one.mp (keysNodup_run es) u
  · intro r u s1 s2 h1 h2
    have hb : (u != "" && u != "undefined") = true := by simp [h1, h2]
    simp only [stepRegistry, handleConnect, hb, if_true]
    exact lookupKey_setKey_self _ u s2

/-- Witness for claim C8: two connects of user "a" on concrete socket ids;
the registry maps "a" to the second socket id. -/
theorem registry_at_most_one_connection_witness :
    ("a" ≠ "" ∧ "a" ≠ "undefined")
    ∧ lookupKey
        (stepRegistry (stepRegistry [] (RegEvent.connect (Conn.mk (some "a") "s1")))
          (RegEvent.connect (Conn.mk (some "a") "s2"))) "a" = some "s2" :=
  ⟨⟨by decide, by decide⟩,
    registry_at_most_one_connection.2 [] "a" "s1" "s2" (by decide) (by decide)⟩

/-- Claim C9: the disconnect handler deletes the registry mapping keyed only
by the disconnecting socket's user id, never comparing connection ids: when
user u reconnects (socket s2 supersedes s1) and the stale socket s1 then
disconnects, u's live mapping (to s2) is deleted and the presence snapshot
broadcast excludes u. -/
theorem disconnect_keyed_only_by_user_id (r r2 : List (String × String))
    (u s1 s2 : String) (hn : KeysNodup r) (h1 : u ≠ "") (h2 : u ≠ "undefined")
    (hr2 : r2 =
      stepRegistry (stepRegistry r (RegEvent.connect (Conn.mk (some u) s1)))
        (RegEvent.connect (Conn.mk (some u) s2))) :
    lookupKey r2 u = some s2
    ∧ (handleDisconnect r2 (Conn.mk (some u) s1)).1 = delKey r2 u
    ∧ lookupKey (handleDisconnect r2 (Conn.mk (some u) s1)).1 u = none
    ∧ (handleDisconnect r2 (Conn.mk (some u) s1)).2 =
        some (regKeys (delKey r2 u))
    ∧ u ∉ regKeys (delKey r2 u) := by
  have hb : (u != "" && u != "undefined") = true := by simp [h1, h2]
  have hbu : (u != "") = true := by simp [h1]
  have hr2' : r2 = setKey (setKey r u s1) u s2 := by
    rw [hr2]; simp only [stepRegistry, handleConnect, hb, if_true]
  have hn2 : KeysNodup r2 := by
    rw [hr2']
    exact keysNodup_setKey _ u s2 (keysNodup_setKey _ u s1 hn)
  have hdel : (handleDisconnect r2 (Conn.mk (some u) s1)).1 = delKey r2 u := by
    simp [handleDisconnect, hbu]
  have hnotmem : u ∉ regKeys (delKey r2 u) := not_mem_regKeys_delKey r2 u hn2
  refine ⟨?_, hdel, ?_, ?_, hnotmem⟩
  · rw [hr2']
    exact lookupKey_setKey_self _ u s2
  · rw [hdel, lookupKey_eq_none_iff]
    exact hnotmem
  · simp [handleDisconnect, hbu]

/-- Witness for claim C9: user "a" connects twice (sockets "s1" then "s2");
the stale socket "s1" disconnects and "a" vanishes from the registry and
from the broadcast snapshot. -/
theorem disconnect_keyed_only_by_user_id_witness :
    (KeysNodup ([] : List (String × String)) ∧ "a" ≠ "" ∧ "a" ≠ "undefined")
    ∧ lookupKey [("a", "s2")] "a" = some "s2"
    ∧ (handleDisconnect [("a", "s2")] (Conn.mk (some "a") "s1")).1 =
        delKey [("a", "s2")] "a"
    ∧ lookupKey (handleDisconnect [("a", "s2")] (Conn.mk (some "a") "s1")).1 "a" =
        none
    ∧ (handleDisconnect [("a", "s2")] (Conn.mk (some "a") "s1")).2 =
        some (regKeys (delKey [("a", "s2")] "a"))
    ∧ "a" ∉ regKeys (delKey [("a", "s2")] "a") :=
  ⟨⟨by decide, by decide, by decide⟩,
    disconnect_keyed_only_by_user_id [] [("a", "s2")] "a" "s1" "s2"
      (by decide) (by decide) (by decide) (by decide)⟩

/-! ## Claim C2, C4, C5 and C7 theorems -/

/-- Claim C2: `seenAt` is persisted only when both participants'
`showReadReceipts` flags (defaulting to true on a failed or empty profile
fetch) are true — in `sendMessage` and in the mark-seen batch patch — while
`seen` is computed purely from actual viewing (receiver joined to the chat
room at send time; batch always sets it) independently of either privacy
result; with both flags off, the batch also never emits a `messagesSeen`
notification. -/
theorem seenAt_readReceipt_gate (registry : List (String × String))
    (rooms : String → List String) (otherUserId chatId : String)
    (senderResult receiverResult : Option (Option PrivacySettings)) (now : Nat) :
    ((sendMessageSeenFields registry rooms otherUserId chatId senderResult
          receiverResult now).2 ≠ none →
        bothAllowReadReceipts senderResult receiverResult = true
        ∧ (sendMessageSeenFields registry rooms otherUserId chatId senderResult
            receiverResult now).1 = true)
    ∧ (∀ senderResult2 receiverResult2,
        (sendMessageSeenFields registry rooms otherUserId chatId senderResult2
            receiverResult2 now).1 =
          receiverInChatRoom registry rooms otherUserId chatId)
    ∧ privacyOrDefault none = { showReadReceipts := true }
    ∧ (∀ (ba : Bool) (now2 : Nat) (m : Message),
        (applyMarkSeen ba now2 m).seen = true
        ∧ (ba = false → (applyMarkSeen ba now2 m).seenAt = m.seenAt)
        ∧ (ba = true → (applyMarkSeen ba now2 m).seenAt = some now2))
    ∧ ∀ (allMessages : List Message) (userId : String) (now2 page : Nat)
        (sock : Option String),
        (getMessagesMarkSeen allMessages chatId userId false now2 page sock).2 =
          none := by
  refine ⟨?_, fun _ _ => rfl, rfl, ?_, ?_⟩
  · intro hne
    unfold sendMessageSeenFields at hne ⊢
    by_cases hcond : (receiverInChatRoom registry rooms otherUserId chatId &&
        bothAllowReadReceipts senderResult receiverResult) = true
    · rw [Bool.and_eq_true] at hcond
      exact ⟨hcond.2, hcond.1⟩
    · rw [Bool.not_eq_true] at hcond
      exfalso
      apply hne
      simp [hcond]
  · intro ba now2 m
    refine ⟨rfl, ?_, ?_⟩
    · intro h; simp [applyMarkSeen, h]
    · intro h; simp [applyMarkSeen, h]
  · intro allMessages userId now2 page sock
    by_cases hp : page = 1
    · by_cases hl :
          (allMessages.filter (markSeenFilter chatId userId)).length > 0
      · simp only [getMessagesMarkSeen, if_pos hp, if_pos hl]
        rfl
      · simp only [getMessagesMarkSeen, if_pos hp, if_neg hl]
    · simp only [getMessagesMarkSeen, if_neg hp]

/-- Witness for claim C2: on a concrete registry where the receiver's socket
has joined the chat room and both fetches return receipts-on, `seenAt` is
set, so the gate's conclusion holds there. -/
theorem seenAt_readReceipt_gate_witness :
    ((sendMessageSeenFields [("b", "s")] (fun _ => ["c"]) "b" "c"
          (some (some ⟨true⟩)) (some (some ⟨true⟩)) 9).2 ≠ none)
    ∧ (bothAllowReadReceipts (some (some ⟨true⟩)) (some (some ⟨true⟩)) = true
        ∧ (sendMessageSeenFields [("b", "s")] (fun _ => ["c"]) "b" "c"
            (some (some ⟨true⟩)) (some (some ⟨true⟩)) 9).1 = true) :=
  ⟨by decide,
    (seenAt_readReceipt_gate [("b", "s")] (fun _ => ["c"]) "b" "c"
      (some (some ⟨true⟩)) (some (some ⟨true⟩)) 9).1 (by decide)⟩

/-- Claim C4 counterexample: a fresh text message by the requester, none of
the claim's four failure conditions holds, yet the edit with an empty
replacement text is rejected — the claim's "if and only if" misses the
replacement-text validation. -/
theorem editMessage_iff_counterexample :
    isRejected
        (editMessage "a" ""
          (Message.mk 1 "c" "a" "hi" none MessageType.text false none [] false none 0)
          0) = true
    ∧ ¬ ((0 : Nat) - (0 : Nat) > 15 * 60 * 1000
        ∨ ("a" : String) ≠ "a"
        ∨ MessageType.text = MessageType.deleted
        ∨ (MessageType.text = MessageType.image ∧ ("hi" : String) = "")) := by
  decide

/-- Claim C4 (amended): the edit of an existing message is rejected exactly
when the trimmed replacement text is empty, the requester is not the sender,
the message is deleted, the message is an image without text, or more than
15 minutes have elapsed since creation; otherwise it succeeds and sets the
trimmed text, `isEdited`, and `editedAt`. -/
theorem editMessage_rejected_iff (userId text : String) (m : Message) (now : Nat) :
    (isRejected (editMessage userId text m now) = true ↔
      (strTrim text = "" ∨ m.sender ≠ userId ∨ m.messageType = MessageType.deleted
        ∨ (m.messageType = MessageType.image ∧ m.text = "")
        ∨ now - m.createdAt > 15 * 60 * 1000))
    ∧ (isRejected (editMessage userId text m now) = false →
        editMessage userId text m now =
          EditOutcome.edited
            { m with text := strTrim text, isEdited := true, editedAt := some now }) := by
  unfold editMessage
  split_ifs with h1 h2 h3 h4 h5 <;> simp_all [isRejected]

/-- Witness for the amended claim C4: a valid edit of a fresh own text
message succeeds and records the trimmed text, `isEdited` and `editedAt`. -/
theorem editMessage_rejected_iff_witness :
    isRejected
        (editMessage "a" " yo "
          (Message.mk 1 "c" "a" "hi" none MessageType.text false none [] false none 0)
          5) = false
    ∧ editMessage "a" " yo "
        (Message.mk 1 "c" "a" "hi" none MessageType.text false none [] false none 0)
        5 =
      EditOutcome.edited
        (Message.mk 1 "c" "a" "yo" none MessageType.text false none [] true (some 5) 0) :=
  ⟨by decide,
    ((editMessage_rejected_iff "a" " yo "
        (Message.mk 1 "c" "a" "hi" none MessageType.text false none [] false none 0)
        5).2 (by decide)).trans (by decide)⟩

/-- Claim C5: deleting one's own message tombstones it — type `deleted`,
empty text, no image, no reactions — while the record (id, chat, sender,
creation time) persists, and every subsequent edit attempt on the tombstone
is rejected, whoever attempts it. -/
theorem delete_soft_and_irreversible (u : String) (m : Message)
    (hs : m.sender = u) :
    deleteMessage u m = DeleteOutcome.deleted (deleteMessageRecord m)
    ∧ ((deleteMessageRecord m).messageType = MessageType.deleted
        ∧ (deleteMessageRecord m).text = ""
        ∧ (deleteMessageRecord m).image = none
        ∧ (deleteMessageRecord m).reactions = []
        ∧ (deleteMessageRecord m).id = m.id
        ∧ (deleteMessageRecord m).chatId = m.chatId
        ∧ (deleteMessageRecord m).sender = m.sender
        ∧ (deleteMessageRecord m).createdAt = m.createdAt)
    ∧ ∀ (v t : String) (now : Nat),
        isRejected (editMessage v t (deleteMessageRecord m) now) = true := by
  refine ⟨?_, ⟨rfl, rfl, rfl, rfl, rfl, rfl, rfl, rfl⟩, ?_⟩
  · unfold deleteMessage
    rw [if_neg (by simp [hs])]
  · intro v t now
    unfold editMessage
    split_ifs with e1 e2 e3 <;> simp_all [isRejected, deleteMessageRecord]

/-- Witness for claim C5: a concrete own-message delete tombstones the record
and a later edit attempt by the sender is rejected. -/
theorem delete_soft_and_irreversible_witness :
    (Message.mk 1 "c" "a" "hi" none MessageType.text false none
        [Reaction.mk "b" "x"] false none 0).sender = "a"
    ∧ deleteMessage "a"
        (Message.mk 1 "c" "a" "hi" none MessageType.text false none
          [Reaction.mk "b" "x"] false none 0) =
      DeleteOutcome.deleted
        (deleteMessageRecord
          (Message.mk 1 "c" "a" "hi" none MessageType.text false none
            [Reaction.mk "b" "x"] false none 0))
    ∧ ∀ (v t : String) (now : Nat),
        isRejected
          (editMessage v t
            (deleteMessageRecord
              (Message.mk 1 "c" "a" "hi" none MessageType.text false none
                [Reaction.mk "b" "x"] false none 0)) now) = true :=
  ⟨rfl,
    (delete_soft_and_irreversible "a"
      (Message.mk 1 "c" "a" "hi" none MessageType.text false none
        [Reaction.mk "b" "x"] false none 0) rfl).1,
    (delete_soft_and_irreversible "a"
      (Message.mk 1 "c" "a" "hi" none MessageType.text false none
        [Reaction.mk "b" "x"] false none 0) rfl).2.2⟩

/-- Claim C7 (code bug): deleting a message that is NOT the chat's latest —
here message 1 while message 2 is chronologically latest and
`Chat.latestMessage` shows its text — still overwrites `Chat.latestMessage`
with the sentinel, because the source only checks that the current text is
not already "Message deleted" (its own comment says "if this was the latest
message"). -/
theorem delete_latest_refresh_bug :
    ¬ isChatLatest
        [Message.mk 1 "c" "a" "old" none MessageType.text false none [] false none 5,
         Message.mk 2 "c" "b" "newer" none MessageType.text false none [] false none 10]
        (Message.mk 1 "c" "a" "old" none MessageType.text false none [] false none 5)
    ∧ deleteMessage "a"
        (Message.mk 1 "c" "a" "old" none MessageType.text false none [] false none 5) =
      DeleteOutcome.deleted
        (Message.mk 1 "c" "a" "" none MessageType.deleted false none [] false none 5)
    ∧ deleteUpdateLatest
        (ChatRec.mk "c" ["a", "b"] (LatestMessage.mk "newer" "b")) "a" =
      ChatRec.mk "c" ["a", "b"] (LatestMessage.mk "Message deleted" "a")
    ∧ (deleteUpdateLatest
          (ChatRec.mk "c" ["a", "b"] (LatestMessage.mk "newer" "b")) "a").latestMessage ≠
        (ChatRec.mk "c" ["a", "b"] (LatestMessage.mk "newer" "b")).latestMessage := by
  decide

/-! ## Claim C6 theorems -/

theorem zip_map_self {α β : Type} (l : List α) (f : α → β) :
    l.zip (l.map f) = l.map (fun a => (a, f a)) := by
  induction l with
  | nil => rfl
  | cons a t ih => simp [ih]

/-- Claim C6 counterexample: a non-sender's query of the message list at
page 2 leaves an unseen message of that chat unseen — the mark-seen batch
runs only on the first page, not on every list query. -/
theorem markSeen_page_counterexample :
    getMessagesMarkSeen
        [Message.mk 1 "c" "a" "hi" none MessageType.text false none [] false none 0]
        "c" "b" true 7 2 (some "s") =
      ([Message.mk 1 "c" "a" "hi" none MessageType.text false none [] false none 0],
        none)
    ∧ (Message.mk 1 "c" "a" "hi" none MessageType.text false none [] false
        none 0).seen = false
    ∧ (Message.mk 1 "c" "a" "hi" none MessageType.text false none [] false
        none 0).sender ≠ "b" := by
  decide

/-- Claim C6 (amended): whenever the non-sender queries the FIRST page of a
chat's message list (the default), every currently-unseen message of that
chat not authored by the requester becomes seen, all other messages are
untouched, and the `messagesSeen` notification is emitted at most once per
batch, carrying the ids of all affected messages, only towards a resolvable
socket and only under the read-receipt gate. -/
theorem markSeen_batch_semantics (allMessages : List Message)
    (chatId userId : String) (bothAllow : Bool) (now page : Nat)
    (otherUserSocket : Option String) (hpage : page = 1) :
    (∀ m ∈ (getMessagesMarkSeen allMessages chatId userId bothAllow now page
        otherUserSocket).1,
        m.chatId = chatId → m.sender ≠ userId → m.seen = true)
    ∧ (∀ pr ∈ allMessages.zip
          (getMessagesMarkSeen allMessages chatId userId bothAllow now page
            otherUserSocket).1,
        (markSeenFilter chatId userId pr.1 = false → pr.2 = pr.1)
        ∧ (markSeenFilter chatId userId pr.1 = true →
            pr.2 = applyMarkSeen bothAllow now pr.1))
    ∧ (∀ ev, (getMessagesMarkSeen allMessages chatId userId bothAllow now page
          otherUserSocket).2 = some ev →
        ev.messageIds =
          (allMessages.filter (markSeenFilter chatId userId)).map Message.id
        ∧ ev.chatId = chatId ∧ ev.seenBy = userId)
    ∧ ((getMessagesMarkSeen allMessages chatId userId bothAllow now page
          otherUserSocket).2 ≠ none →
        bothAllow = true ∧ otherUserSocket ≠ none) := by
  subst hpage
  by_cases hl : (allMessages.filter (markSeenFilter chatId userId)).length > 0
  · have hfst : (getMessagesMarkSeen allMessages chatId userId bothAllow now 1
        otherUserSocket).1 =
        allMessages.map (fun m =>
          if markSeenFilter chatId userId m then applyMarkSeen bothAllow now m
          else m) := by
      simp only [getMessagesMarkSeen, if_pos hl]
      rw [if_pos trivial]
    have hsnd : (getMessagesMarkSeen allMessages chatId userId bothAllow now 1
        otherUserSocket).2 =
        (if bothAllow then
          match otherUserSocket with
          | some _ =>
              some (SeenEvent.mk chatId userId
                ((allMessages.filter (markSeenFilter chatId userId)).map
                  Message.id) now)
          | none => none
        else none) := by
      simp only [getMessagesMarkSeen, if_pos hl]
      rw [if_pos trivial]
    refine ⟨?_, ?_, ?_, ?_⟩
    · intro m hm h1 h2
      rw [hfst] at hm
      rcases List.mem_map.mp hm with ⟨x, hx, rfl⟩
      by_cases hf : markSeenFilter chatId userId x = true
      · rw [if_pos hf]
        rfl
      · rw [Bool.not_eq_true] at hf
        rw [if_neg (by simp [hf])] at h1 h2 ⊢
        cases hseen : x.seen
        · simp [markSeenFilter, h1, h2, hseen] at hf
        · rfl
    · intro pr hpr
      rw [hfst, zip_map_self] at hpr
      rcases List.mem_map.mp hpr with ⟨x, hx, rfl⟩
      constructor
      · intro hf
        show (if markSeenFilter chatId userId x = true then
            applyMarkSeen bothAllow now x else x) = x
        rw [if_neg (by simp [hf])]
      · intro hf
        show (if markSeenFilter chatId userId x = true then
            applyMarkSeen bothAllow now x else x) = applyMarkSeen bothAllow now x
        rw [if_pos hf]
    · intro ev hev
      rw [hsnd] at hev
      by_cases hba : bothAllow = true
      · rw [if_pos hba] at hev
        cases hsock : otherUserSocket with
        | none => rw [hsock] at hev; cases hev
        | some s =>
            rw [hsock] at hev
            cases hev
            exact ⟨rfl, rfl, rfl⟩
      · rw [Bool.not_eq_true] at hba
        rw [hba] at hev
        simp at hev
    · intro hne
      rw [hsnd] at hne
      by_cases hba : bothAllow = true
      · refine ⟨hba, ?_⟩
        intro hsock
        rw [if_pos hba, hsock] at hne
        exact hne rfl
      · rw [Bool.not_eq_true] at hba
        rw [hba] at hne
        simp at hne
  · have h0 : (allMessages.filter (markSeenFilter chatId userId)).length = 0 :=
      Nat.eq_zero_of_not_pos hl
    have hnil : allMessages.filter (markSeenFilter chatId userId) = [] :=
      List.eq_nil_of_length_eq_zero h0
    have hres : getMessagesMarkSeen allMessages chatId userId bothAllow now 1
        otherUserSocket = (allMessages, none) := by
      simp only [getMessagesMarkSeen, if_neg hl]
      rw [if_pos trivial]
    refine ⟨?_, ?_, ?_, ?_⟩
    · intro m hm h1 h2
      simp only [hres] at hm
      have hf : markSeenFilter chatId userId m = false := by
        by_contra hc
        rw [Bool.not_eq_false] at hc
        have hmem : m ∈ allMessages.filter (markSeenFilter chatId userId) :=
          List.mem_filter.mpr ⟨hm, hc⟩
        rw [hnil] at hmem
        cases hmem
      cases hseen : m.seen
      · simp [markSeenFilter, h1, h2, hseen] at hf
      · rfl
    · intro pr hpr
      simp only [hres] at hpr
      have hz : allMessages.zip allMessages =
          allMessages.map (fun a => (a, a)) := by
        have hh := zip_map_self allMessages id
        rw [List.map_id] at hh
        exact hh
      rw [hz] at hpr
      rcases List.mem_map.mp hpr with ⟨x, hx, rfl⟩
      refine ⟨fun _ => rfl, ?_⟩
      intro hf
      exfalso
      have hmem : x ∈ allMessages.filter (markSeenFilter chatId userId) :=
        List.mem_filter.mpr ⟨hx, hf⟩
      rw [hnil] at hmem
      cases hmem
    · intro ev hev
      simp only [hres] at hev
      cases hev
    · intro hne
      simp only [hres] at hne
      exact absurd rfl hne

/-- Witness for the amended claim C6: a concrete first-page query by the
non-sender marks the chat's unseen message seen. -/
theorem markSeen_batch_semantics_witness :
    (1 : Nat) = 1
    ∧ ∀ m ∈ (getMessagesMarkSeen
        [Message.mk 1 "c" "a" "hi" none MessageType.text false none [] false none 0]
        "c" "b" true 7 1 (some "s")).1,
        m.chatId = "c" → m.sender ≠ "b" → m.seen = true :=
  ⟨rfl,
    (markSeen_batch_semantics
      [Message.mk 1 "c" "a" "hi" none MessageType.text false none [] false none 0]
      "c" "b" true 7 1 (some "s") rfl).1⟩
